import Mathlib

/-!
# Verification of the well-fed-wiz nutrition-coaching application

Shallow embedding of the client-side computations and the declarative
database rules of the repository, together with proofs about the
behaviours its specification describes.

Modelling conventions:
* JavaScript `number` values carrying weights, averages and week counts
  are embedded as `Rat`; a value that can be `NaN` (a failed
  `parseFloat`) is embedded as `Option Rat`.
* Calendar dates (`recorded_date`, `appointment_date`) are embedded as
  `Int`, the number of days since an arbitrary epoch.  The rows read
  from the database carry dates at day granularity, so millisecond
  differences divided by `1000 * 60 * 60 * 24` are exact integers.
* An optional JavaScript parameter of type `number | undefined` is
  embedded as `Option Rat`.  The source tests such parameters for
  truthiness (`startWeight || ...`, `targetWeight ? ... : ...`,
  `targetWeight && ...`), under which both `undefined` and `0` fail,
  so the embedding tests `none` and `some 0` the same way the code does.
* Fallible backend calls are embedded by passing the call's outcome as
  an explicit `Except` argument to the handler that performs it.
-/

namespace WellFedWiz

attribute [local semireducible] Rat.add Rat.sub Rat.mul Rat.inv

/-- A row of `weight_history` as selected by the UI
(`recorded_date, weight_kg`). -/
structure WeightRecord where
  recorded_date : Int
  weight_kg : Rat
deriving Repr, DecidableEq

/-- `weightHistory[0]` — the history is fetched ordered by
`recorded_date` ascending, so index 0 is the earliest record. -/
def wfirst (weightHistory : List WeightRecord) : WeightRecord :=
  weightHistory.headD ⟨0, 0⟩

/-- `weightHistory[weightHistory.length - 1]` — the most recent record. -/
def wlast (weightHistory : List WeightRecord) : WeightRecord :=
  weightHistory.getLastD ⟨0, 0⟩

/-- `Math.max` on two (non-`NaN`) numbers. -/
def jsMax (a b : Rat) : Rat := if a ≤ b then b else a

/-- `Math.abs` on a (non-`NaN`) number. -/
def jsAbs (a : Rat) : Rat := if a < 0 then -a else a

theorem jsMax_eq_max (a b : Rat) : jsMax a b = max a b := by
  unfold jsMax
  rcases le_or_lt a b with h | h
  · simp [h, max_eq_right h]
  · simp [not_le.mpr h, max_eq_left h.le]

theorem jsAbs_eq_abs (a : Rat) : jsAbs a = |a| := by
  unfold jsAbs
  rcases lt_or_le a 0 with h | h
  · simp [h, abs_of_neg h]
  · simp [not_lt.mpr h, abs_of_nonneg h]

/-- The record returned by `calculateTrendAnalysis` in
`WeightJourneyGraph.tsx`.  `projectedDate` is an instant in days since
the epoch (possibly with a fractional time-of-day part coming from
`now`). -/
structure TrendAnalysis where
  avgWeeklyChange : Rat
  weeksToTarget : Option Rat
  projectedDate : Option Rat
  isOnTrack : Option Bool
deriving Repr, DecidableEq

/-- `calculateTrendAnalysis` from `WeightJourneyGraph.tsx` (lines
204-235).  `now` is the instant `new Date()` evaluates to, in days
since the epoch.  `projectionDate.setDate(projectionDate.getDate() +
weeksToTarget * 7)` truncates its argument to an integer (ECMA-262
`MakeDay` applies `ToIntegerOrInfinity` to the day number); since
`weeksToTarget * 7` is nonnegative, the instant moves forward by
`Rat.floor (weeksToTarget * 7)` whole days. -/
def calculateTrendAnalysis (targetWeight : Option Rat) (now : Rat)
    (weightHistory : List WeightRecord) : Option TrendAnalysis :=
  if weightHistory.length < 2 then none else
  let currentWeight := (wlast weightHistory).weight_kg
  let startWeight := (wfirst weightHistory).weight_kg
  let weightChange := currentWeight - startWeight
  let firstDate : Int := (wfirst weightHistory).recorded_date
  let lastDate : Int := (wlast weightHistory).recorded_date
  let daysDiff : Rat := jsMax 1 ((lastDate - firstDate : Int) : Rat)
  let weeksDiff : Rat := daysDiff / 7
  let avgWeeklyChange : Rat := if 0 < weeksDiff then weightChange / weeksDiff else 0
  let proj : Option (Rat × Rat) :=
    match targetWeight with
    | none => none
    | some t =>
      if t = 0 then none
      else if avgWeeklyChange = 0 then none
      else
        let remainingWeight := currentWeight - t
        let weeksToTarget := jsAbs (remainingWeight / avgWeeklyChange)
        some (weeksToTarget, now + ((Rat.floor (weeksToTarget * 7) : Int) : Rat))
  some
    { avgWeeklyChange := avgWeeklyChange
      weeksToTarget := proj.map Prod.fst
      projectedDate := proj.map Prod.snd
      isOnTrack :=
        match targetWeight with
        | none => none
        | some t =>
          if t = 0 then none
          else some (decide ((weightChange < 0 ∧ t < currentWeight) ∨
                             (0 ≤ weightChange ∧ currentWeight < t))) }

example :
    calculateTrendAnalysis (some (17/2)) 0 [⟨0, 10⟩, ⟨7, 9⟩] =
      some ⟨-1, some (1/2), some 3, some true⟩ := by decide

example : calculateTrendAnalysis (some 5) 0 [⟨0, 10⟩] = none := by decide

/-! ## Achievement badges (`AchievementBadges`, unnamed source file) -/

/-- Stable insertion of a record into a list sorted by `recorded_date`
descending; an incoming record is placed after records sharing its date. -/
def insertByDateDesc (r : WeightRecord) : List WeightRecord → List WeightRecord
  | [] => [r]
  | x :: xs =>
    if x.recorded_date ≤ r.recorded_date then r :: x :: xs
    else x :: insertByDateDesc r xs

/-- `[...weightHistory].sort((a, b) => b.date - a.date)` — the stable
descending sort by `recorded_date` performed by `calculateStreak`. -/
def sortByDateDesc : List WeightRecord → List WeightRecord
  | [] => []
  | r :: rest => insertByDateDesc r (sortByDateDesc rest)

/-- The `for`-loop of `calculateStreak`: `currentDate` starts at today and is
reset to each matched record's date; the loop breaks at the first record whose
distance in days from `currentDate` differs from the current `streak` value.
Dates are already at day granularity, so
`Math.floor((currentDate - recordDate) / 86400000)` is the exact difference. -/
def streakLoop : List WeightRecord → Int → Nat → Nat
  | [], _, streak => streak
  | record :: rest, currentDate, streak =>
    let daysDiff := currentDate - record.recorded_date
    if daysDiff = (streak : Int) then streakLoop rest record.recorded_date (streak + 1)
    else streak

/-- `calculateStreak` from the `AchievementBadges` component; `today` is the
day `new Date()` falls on. -/
def calculateStreak (today : Int) (weightHistory : List WeightRecord) : Nat :=
  streakLoop (sortByDateDesc weightHistory) today 0

/-- Whether some record of the history is dated `d`. -/
def hasLogOn (weightHistory : List WeightRecord) (d : Int) : Bool :=
  weightHistory.any fun r => r.recorded_date = d

/-- Fueled count of consecutive logged days walking backwards from a day. -/
def consecutiveRun (weightHistory : List WeightRecord) : Int → Nat → Nat
  | _, 0 => 0
  | d, fuel + 1 =>
    if hasLogOn weightHistory d then consecutiveRun weightHistory (d - 1) fuel + 1
    else 0

/-- Modelled from the claim about `calculateStreak`: the number of consecutive
calendar days `today, today - 1, ...` each of which carries a log, stopping at
the first gap.  Fuel `weightHistory.length` suffices because a run of `n` days
requires `n` records with distinct dates. -/
def claimedStreak (today : Int) (weightHistory : List WeightRecord) : Nat :=
  consecutiveRun weightHistory today weightHistory.length

/-- The `unlocked` flags of the achievement table built by
`calculateAchievements`; field names follow the badge `id` strings.
`targetReached` and `halfwayThere` are `Option`s because those entries are
spliced into the array only when their guards are truthy. -/
structure AchievementFlags where
  firstLog : Bool
  kg1 : Bool
  kg5 : Bool
  kg10 : Bool
  kg15 : Bool
  targetReached : Option Bool
  halfwayThere : Option Bool
  streak3 : Bool
  streak7 : Bool
  streak30 : Bool
  streak100 : Bool
  logs10 : Bool
  logs50 : Bool
deriving Repr, DecidableEq

/-- `calculateAchievements` from the `AchievementBadges` component, projected
to the `unlocked` flags.  `startWeight || weightHistory[0].weight_kg` and the
guards `targetWeight ? ...` and `targetWeight && startWeight ? ...` test
truthiness, under which both an absent and a zero number fail. -/
def calculateAchievements (today : Int) (startWeight targetWeight : Option Rat)
    (weightHistory : List WeightRecord) : Option AchievementFlags :=
  if weightHistory.length = 0 then none else
  let currentWeight := (wlast weightHistory).weight_kg
  let firstWeight :=
    match startWeight with
    | some s => if s = 0 then (wfirst weightHistory).weight_kg else s
    | none => (wfirst weightHistory).weight_kg
  let totalChange := jsAbs (currentWeight - firstWeight)
  let isLosing := currentWeight < firstWeight
  let streak := calculateStreak today weightHistory
  let totalLogs := weightHistory.length
  some
    { firstLog := decide (1 ≤ totalLogs)
      kg1 := decide (1 ≤ totalChange)
      kg5 := decide (5 ≤ totalChange)
      kg10 := decide (10 ≤ totalChange)
      kg15 := decide (15 ≤ totalChange)
      targetReached :=
        match targetWeight with
        | some t =>
          if t = 0 then none
          else some (if isLosing then decide (currentWeight ≤ t) else decide (t ≤ currentWeight))
        | none => none
      halfwayThere :=
        match targetWeight, startWeight with
        | some t, some s =>
          if t = 0 ∨ s = 0 then none
          else some (decide (jsAbs (t - s) * (1/2) ≤ jsAbs (currentWeight - s)))
        | _, _ => none
      streak3 := decide (3 ≤ streak)
      streak7 := decide (7 ≤ streak)
      streak30 := decide (30 ≤ streak)
      streak100 := decide (100 ≤ streak)
      logs10 := decide (10 ≤ totalLogs)
      logs50 := decide (50 ≤ totalLogs) }

/-! ## Appointments: row-level security and the client UI operations -/

/-- The four statuses admitted by the CHECK constraint on
`appointments.status`. -/
inductive ApptStatus
  | pending
  | confirmed
  | cancelled
  | completed
deriving Repr, DecidableEq

/-- A row of `appointments` as the client UI sees it. -/
structure Appointment where
  id : Nat
  client_id : Nat
  appointment_date : Int
  appointment_time : Nat
  duration_minutes : Nat
  status : ApptStatus
  notes : Option String
  client_notes : Option String
deriving Repr, DecidableEq

/-- The `USING` expression of the row-level-security policy
"Clients can update own pending or confirmed appointments"
(migration `20251202063503`): `auth.uid() = client_id AND status IN
('pending', 'confirmed')`. -/
def clientUpdateUsing (uid : Nat) (row : Appointment) : Prop :=
  uid = row.client_id ∧ (row.status = .pending ∨ row.status = .confirmed)

instance (uid : Nat) (row : Appointment) : Decidable (clientUpdateUsing uid row) := by
  unfold clientUpdateUsing
  exact inferInstance

/-- The column assignment of `handleCancel`:
`update({ status: "cancelled" })`. -/
def cancelUpdate (row : Appointment) : Appointment :=
  { row with status := .cancelled }

/-- The column assignment of `handleReschedule`:
`update({ appointment_date, appointment_time,
status: wasConfirmed ? "pending" : selectedAppointment.status })`. -/
def rescheduleUpdate (row : Appointment) (newDate : Int) (newTime : Nat) : Appointment :=
  { row with
      appointment_date := newDate
      appointment_time := newTime
      status := if row.status = .confirmed then .pending else row.status }

/-- The two mutations the client UI can issue against an appointment row. -/
inductive ClientAction
  | cancel
  | reschedule (newDate : Int) (newTime : Nat)
deriving Repr, DecidableEq

def applyClientAction : ClientAction → Appointment → Appointment
  | .cancel, row => cancelUpdate row
  | .reschedule d t, row => rescheduleUpdate row d t

/-- Database semantics of a client-issued UPDATE under row-level security:
the mutation is applied only when the policy's `USING` expression accepts the
stored row and — Postgres applies `USING` as the `WITH CHECK` expression when
none is declared — the updated row; otherwise the statement touches nothing
and the row is unchanged. -/
def clientStep (uid : Nat) (a : ClientAction) (row : Appointment) : Appointment :=
  if clientUpdateUsing uid row ∧ clientUpdateUsing uid (applyClientAction a row)
  then applyClientAction a row
  else row

/-- `AppointmentsList.tsx` line 265: the Reschedule and Cancel buttons are
rendered only when
`appointment.status === "pending" || appointment.status === "confirmed"`. -/
def clientActionsOffered (row : Appointment) : Bool :=
  decide (row.status = ApptStatus.pending) || decide (row.status = ApptStatus.confirmed)

/-! ## Fallible handlers: fetches, inserts, and the notification block -/

/-- A transient UI notification (`toast`). -/
structure Toast where
  title : String
  isError : Bool
deriving Repr, DecidableEq

/-- Outcome of one run of a fetch handler: the resulting list state, the
notification shown (if any), and how many backend requests were issued. -/
structure FetchOutcome (α : Type) where
  state : List α
  toast : Option Toast
  requests : Nat
deriving Repr, DecidableEq

/-- `fetchWeightHistory` (`WeightJourneyGraph.tsx` lines 42-61): one select;
on success the state is replaced by the returned rows, on failure a
destructive "Error" toast is shown and the state keeps its previous value
(initially `[]`).  Neither branch issues another request. -/
def fetchWeightHistory (prev : List WeightRecord)
    (result : Except String (List WeightRecord)) : FetchOutcome WeightRecord :=
  match result with
  | .ok data => ⟨data, none, 1⟩
  | .error _ => ⟨prev, some ⟨"Error", true⟩, 1⟩

/-- `fetchAppointments` (`AppointmentsList.tsx` lines 64-80): one select; on
failure the error is only written to the console — no toast — and the state
keeps its previous value.  Neither branch issues another request. -/
def fetchAppointments (prev : List Appointment)
    (result : Except String (List Appointment)) : FetchOutcome Appointment :=
  match result with
  | .ok data => ⟨data, none, 1⟩
  | .error _ => ⟨prev, none, 1⟩

/-- `handleAddWeight` (`WeightJourneyGraph.tsx` lines 63-102).  `parsed` is
`parseFloat(newWeight)` with `none` standing for `NaN`; the guard
`!weight || weight <= 0` rejects `NaN`, `0` and negatives before any insert,
showing the "Invalid Weight" toast. -/
def handleAddWeight (db : List WeightRecord) (parsed : Option Rat) (recordDate : Int)
    (insertResult : Except String Unit) : List WeightRecord × Toast :=
  match parsed with
  | none => (db, ⟨"Invalid Weight", true⟩)
  | some weight =>
    if weight = 0 then (db, ⟨"Invalid Weight", true⟩)
    else if weight ≤ 0 then (db, ⟨"Invalid Weight", true⟩)
    else
      match insertResult with
      | .error _ => (db, ⟨"Error", true⟩)
      | .ok _ => (db ++ [⟨recordDate, weight⟩], ⟨"Weight Recorded!", false⟩)

/-- A row of `client_meal_plans` as inserted by `handleAssign`. -/
structure ClientMealPlanRow where
  client_id : Nat
  meal_plan_id : Nat
  assigned_by : Option Nat
  start_date : Int
  notes : Option String
deriving Repr, DecidableEq

/-- `handleAssign` (`AssignMealPlan.tsx` lines 84-161) as a state transformer
on `client_meal_plans`.  The outcome of the insert and the outcome of the
whole notification block (the profile/user/meal-plan lookups plus the
edge-function invocation) are supplied as `Except` values; the inner
`try { ... } catch (emailError)` logs a notification failure to the console
and falls through to the success toast. -/
def handleAssign (db : List ClientMealPlanRow) (row : ClientMealPlanRow)
    (insertResult : Except String Unit) (emailResult : Except String Unit) :
    List ClientMealPlanRow × Toast :=
  match insertResult with
  | .error _ => (db, ⟨"Error", true⟩)
  | .ok _ =>
    let dbAfter := db ++ [row]
    match emailResult with
    | .ok _ => (dbAfter, ⟨"Success", false⟩)
    | .error _ => (dbAfter, ⟨"Success", false⟩)

/-- `handleReschedule` (`AppointmentsList.tsx` lines 117-200) as a state
transformer on `appointments`: the UPDATE rewrites the selected row through
`rescheduleUpdate`; on failure nothing changes and an error toast is shown;
on success the notification block runs inside its own `try`/`catch` whose
failure is logged and swallowed, and the success toast is shown. -/
def handleRescheduleOp (db : List Appointment) (apptId : Nat) (newDate : Int)
    (newTime : Nat) (updateResult : Except String Unit)
    (emailResult : Except String Unit) : List Appointment × Toast :=
  match updateResult with
  | .error _ => (db, ⟨"Error", true⟩)
  | .ok _ =>
    let dbAfter := db.map fun row =>
      if row.id = apptId then rescheduleUpdate row newDate newTime else row
    match emailResult with
    | .ok _ => (dbAfter, ⟨"Appointment Rescheduled", false⟩)
    | .error _ => (dbAfter, ⟨"Appointment Rescheduled", false⟩)

/-! ## Schema CHECK constraints on status columns -/

/-- `check (status in ('pending', 'confirmed', 'cancelled', 'completed'))`
on `appointments` (migration `20251202050706`). -/
def appointmentStatusCheck (s : String) : Bool :=
  decide (s ∈ ["pending", "confirmed", "cancelled", "completed"])

/-- `check (status in ('active', 'completed', 'cancelled'))` on
`client_meal_plans` (migration `20251202051114`). -/
def clientMealPlanStatusCheck (s : String) : Bool :=
  decide (s ∈ ["active", "completed", "cancelled"])

/-- A write against the status column of a table: inserting a row with the
given status (defaults included — every insert carries some status value),
or updating the status of row `i`.  Rows are abstracted to their status
column, the only column the CHECK constraints mention. -/
inductive StatusWrite
  | ins (s : String)
  | upd (i : Nat) (s : String)
deriving Repr, DecidableEq

/-- The database applies a write only when the stored value would pass the
table's CHECK constraint; otherwise the statement is rejected and the table
is unchanged. -/
def applyWrite (check : String → Bool) (table : List String) : StatusWrite → List String
  | .ins s => if check s then table ++ [s] else table
  | .upd i s => if check s then table.set i s else table

/-- The table reached from the empty table by a sequence of writes. -/
def runWrites (check : String → Bool) (ops : List StatusWrite) : List String :=
  ops.foldl (applyWrite check) []

/-! ## Helper lemmas -/

theorem one_le_jsMax_one (x : Rat) : 1 ≤ jsMax 1 x := by
  unfold jsMax
  split
  · assumption
  · exact le_refl 1

theorem jsMax_one_div_seven_pos (x : Rat) : 0 < jsMax 1 x / 7 :=
  div_pos (lt_of_lt_of_le zero_lt_one (one_le_jsMax_one x)) (by norm_num)

theorem mem_applyWrite_check {check : String → Bool} {table : List String}
    (ht : ∀ s ∈ table, check s = true) (op : StatusWrite) :
    ∀ s ∈ applyWrite check table op, check s = true := by
  cases op with
  | ins v =>
    simp only [applyWrite]
    split
    · intro s hs
      rcases List.mem_append.mp hs with h | h
      · exact ht s h
      · rw [List.mem_singleton.mp h]
        assumption
    · exact ht
  | upd i v =>
    simp only [applyWrite]
    split
    · intro s hs
      rcases List.mem_or_eq_of_mem_set hs with h | h
      · exact ht s h
      · rw [h]
        assumption
    · exact ht

theorem mem_foldl_applyWrite_check (check : String → Bool) (ops : List StatusWrite) :
    ∀ table, (∀ s ∈ table, check s = true) →
      ∀ s ∈ ops.foldl (applyWrite check) table, check s = true := by
  induction ops with
  | nil => intro table ht; simpa using ht
  | cons op rest ih =>
    intro table ht
    simpa only [List.foldl_cons] using ih _ (mem_applyWrite_check ht op)

theorem runWrites_check (check : String → Bool) (ops : List StatusWrite) :
    ∀ s ∈ runWrites check ops, check s = true :=
  mem_foldl_applyWrite_check check ops [] (by intro s hs; cases hs)

/-! ## Claim theorems -/

/-- C8 (code_bug evidence): the achievement streak is claimed to count
consecutive calendar days back from today, but `calculateStreak`, after
matching a record, both resets `currentDate` to that record's date and keeps
comparing against the incremented `streak` counter, so a history logged
today (day 10), yesterday (day 9) and the day before (day 8) yields streak 2
while the consecutive-day run back from today has length 3. -/
theorem c8_streak_divergence :
    calculateStreak 10 [⟨10, 70⟩, ⟨9, 71⟩, ⟨8, 72⟩] = 2 ∧
    claimedStreak 10 [⟨10, 70⟩, ⟨9, 71⟩, ⟨8, 72⟩] = 3 :=
  ⟨by decide, by decide⟩

/-- C3: a client can never update an appointment once its status is
`cancelled`: the row-level-security `USING` predicate rejects every
client-issued cancel or reschedule against a cancelled row, so the client
step leaves the row unchanged, and the client UI offers the
Reschedule/Cancel actions exactly for pending or confirmed appointments,
never for a cancelled one. -/
theorem c3_cancelled_immutable_for_client (uid : Nat) (a : ClientAction)
    (row : Appointment) :
    (row.status = ApptStatus.cancelled → clientStep uid a row = row) ∧
    (clientActionsOffered row = true ↔
      (row.status = ApptStatus.pending ∨ row.status = ApptStatus.confirmed)) := by
  constructor
  · intro h
    unfold clientStep
    rw [if_neg]
    intro hc
    rcases hc.1.2 with h2 | h2 <;> rw [h] at h2 <;> exact ApptStatus.noConfusion h2
  · simp [clientActionsOffered]

/-- Witness for C3 at a concrete cancelled appointment. -/
theorem c3_cancelled_immutable_witness :
    clientStep 1 ClientAction.cancel ⟨0, 1, 0, 9, 60, ApptStatus.cancelled, none, none⟩ =
      ⟨0, 1, 0, 9, 60, ApptStatus.cancelled, none, none⟩ :=
  (c3_cancelled_immutable_for_client 1 ClientAction.cancel
    ⟨0, 1, 0, 9, 60, ApptStatus.cancelled, none, none⟩).1 rfl

/-- C9: rescheduling writes only the date, the time, and the status — status
`confirmed` is mapped back to `pending` and any other status is written back
unchanged — while the remaining columns of the row are not modified. -/
theorem c9_reschedule_frame (row : Appointment) (newDate : Int) (newTime : Nat) :
    (rescheduleUpdate row newDate newTime).appointment_date = newDate ∧
    (rescheduleUpdate row newDate newTime).appointment_time = newTime ∧
    (rescheduleUpdate row newDate newTime).status =
      (if row.status = ApptStatus.confirmed then ApptStatus.pending else row.status) ∧
    (rescheduleUpdate row newDate newTime).id = row.id ∧
    (rescheduleUpdate row newDate newTime).client_id = row.client_id ∧
    (rescheduleUpdate row newDate newTime).duration_minutes = row.duration_minutes ∧
    (rescheduleUpdate row newDate newTime).notes = row.notes ∧
    (rescheduleUpdate row newDate newTime).client_notes = row.client_notes :=
  ⟨rfl, rfl, rfl, rfl, rfl, rfl, rfl, rfl⟩

/-- C5: when the primary write succeeds, a failure of the notification block
is swallowed: both assign-meal-plan and reschedule-appointment still report
success and keep the committed write, whatever the email outcome. -/
theorem c5_email_failure_swallowed (mdb : List ClientMealPlanRow)
    (row : ClientMealPlanRow) (adb : List Appointment) (apptId : Nat)
    (newDate : Int) (newTime : Nat) (emailResult : Except String Unit) :
    handleAssign mdb row (Except.ok ()) emailResult =
      (mdb ++ [row], ⟨"Success", false⟩) ∧
    handleRescheduleOp adb apptId newDate newTime (Except.ok ()) emailResult =
      ((adb.map fun r => if r.id = apptId then rescheduleUpdate r newDate newTime else r),
        ⟨"Appointment Rescheduled", false⟩) := by
  cases emailResult <;> exact ⟨rfl, rfl⟩

/-- C6 (counterexample): a failure while fetching the appointments list is
only logged to the console; contrary to the claim, no error notification is
surfaced to the user. -/
theorem c6_appointments_fetch_no_toast :
    (fetchAppointments [] (Except.error "network error")).toast = none := rfl

/-- C6 (amended): every backend-fetch error is caught at the call site and
neither fetch retries; a failed weight-history fetch surfaces a destructive
"Error" toast, while a failed appointments fetch surfaces nothing; both
leave the (initially empty) list state empty and issue exactly one
request. -/
theorem c6_fetch_error_handling_amended (e : String) :
    fetchWeightHistory [] (Except.error e) = ⟨[], some ⟨"Error", true⟩, 1⟩ ∧
    fetchAppointments [] (Except.error e) = ⟨[], none, 1⟩ :=
  ⟨rfl, rfl⟩

/-- C4: a submitted weight whose parsed value is `NaN`, zero, or negative is
rejected before any insert: the stored history is unchanged and the
"Invalid Weight" validation toast is shown. -/
theorem c4_invalid_weight_rejected (db : List WeightRecord) (parsed : Option Rat)
    (recordDate : Int) (insertResult : Except String Unit)
    (h : parsed = none ∨ ∃ w, parsed = some w ∧ w ≤ 0) :
    handleAddWeight db parsed recordDate insertResult = (db, ⟨"Invalid Weight", true⟩) := by
  rcases h with h | ⟨w, hw, hle⟩
  · rw [h]; rfl
  · rw [hw]
    by_cases h0 : w = 0
    · simp [handleAddWeight, h0]
    · simp [handleAddWeight, h0, hle]

/-- Witness for C4 at a concrete rejected input (`NaN`). -/
theorem c4_invalid_weight_witness :
    handleAddWeight [] none 5 (Except.ok ()) = ([], ⟨"Invalid Weight", true⟩) :=
  c4_invalid_weight_rejected [] none 5 (Except.ok ()) (Or.inl rfl)

/-- C7: enumerated status values are a schema-level invariant: every table
state reachable by inserts and updates filtered through the CHECK
constraints contains only statuses from the declared sets. -/
theorem c7_status_check_invariant (ops mops : List StatusWrite) :
    (∀ s ∈ runWrites appointmentStatusCheck ops,
      s ∈ ["pending", "confirmed", "cancelled", "completed"]) ∧
    (∀ s ∈ runWrites clientMealPlanStatusCheck mops,
      s ∈ ["active", "completed", "cancelled"]) := by
  constructor
  · intro s hs
    have hc := runWrites_check appointmentStatusCheck ops s hs
    unfold appointmentStatusCheck at hc
    exact of_decide_eq_true hc
  · intro s hs
    have hc := runWrites_check clientMealPlanStatusCheck mops s hs
    unfold clientMealPlanStatusCheck at hc
    exact of_decide_eq_true hc

/-- Witness for C7 on a concrete write sequence (including a rejected
out-of-set insert). -/
theorem c7_status_check_witness :
    "cancelled" ∈ ["pending", "confirmed", "cancelled", "completed"] ∧
    "active" ∈ ["active", "completed", "cancelled"] := by
  have h := c7_status_check_invariant
    [StatusWrite.ins "pending", StatusWrite.upd 0 "cancelled", StatusWrite.ins "nonsense"]
    [StatusWrite.ins "active"]
  exact ⟨h.1 "cancelled" (by decide), h.2 "active" (by decide)⟩

/-- C10: with at least two records the dividing span `max(1, days)/7` is
strictly positive — the average weekly change is defined even when every
record carries the same date — and `weeksToTarget` is produced only when the
average weekly change is nonzero. -/
theorem c10_no_division_by_zero (targetWeight : Option Rat) (now : Rat)
    (weightHistory : List WeightRecord) (h2 : 2 ≤ weightHistory.length) :
    ∃ ta, calculateTrendAnalysis targetWeight now weightHistory = some ta ∧
      (0 : Rat) < jsMax 1 (((wlast weightHistory).recorded_date -
        (wfirst weightHistory).recorded_date : Int) : Rat) / 7 ∧
      ta.avgWeeklyChange =
        ((wlast weightHistory).weight_kg - (wfirst weightHistory).weight_kg) /
          (jsMax 1 (((wlast weightHistory).recorded_date -
            (wfirst weightHistory).recorded_date : Int) : Rat) / 7) ∧
      (ta.weeksToTarget.isSome = true → ta.avgWeeklyChange ≠ 0) := by
  have hpos := jsMax_one_div_seven_pos
    (((wlast weightHistory).recorded_date - (wfirst weightHistory).recorded_date : Int) : Rat)
  unfold calculateTrendAnalysis
  rw [if_neg (not_lt.mpr h2)]
  refine ⟨_, rfl, hpos, ?_, ?_⟩
  · simp only [if_pos hpos]
  · simp only [if_pos hpos]
    cases targetWeight with
    | none => simp
    | some t =>
      by_cases ht : t = 0
      · simp [ht]
      · by_cases ha :
          ((wlast weightHistory).weight_kg - (wfirst weightHistory).weight_kg) /
            (jsMax 1 (((wlast weightHistory).recorded_date -
              (wfirst weightHistory).recorded_date : Int) : Rat) / 7) = 0
        · simp [ht, ha]
        · simp [ht, ha]

/-- Witness for C10 at a concrete two-record history. -/
theorem c10_no_division_witness :
    (calculateTrendAnalysis (some 8) 0 [⟨0, 10⟩, ⟨7, 9⟩]).isSome = true := by
  obtain ⟨ta, hta, -⟩ := c10_no_division_by_zero (some 8) 0 [⟨0, 10⟩, ⟨7, 9⟩] (by decide)
  rw [hta]
  rfl

/-- C1 (counterexample): for the history weighing 10 kg on day 0 and 9 kg on
day 7 with target 8.5 kg, the code computes `weeksToTarget = 1/2` but a
projected date 3 days from now — not `weeksToTarget * 7 = 3.5` days as the
claim states, because `setDate` truncates the day offset. -/
theorem c1_projected_date_counterexample :
    calculateTrendAnalysis (some (17/2)) 0 [⟨0, 10⟩, ⟨7, 9⟩] =
      some ⟨-1, some (1/2), some 3, some true⟩ ∧
    (3 : Rat) ≠ 0 + (1/2) * 7 :=
  ⟨by decide, by norm_num⟩

/-- C1 (amended): with fewer than 2 records the trend analysis is `null`;
otherwise `avgWeeklyChange = (lastWeight - firstWeight) / (max(1, days
between first and last recorded date) / 7)`, and when a (truthy) target
weight is set: if `avgWeeklyChange` is nonzero then `weeksToTarget =
|currentWeight - targetWeight| / |avgWeeklyChange|` and the projected date
is today plus `weeksToTarget * 7` days rounded down to a whole number of
days, and if it is zero no projection is produced. -/
theorem c1_trend_projection_amended (now t : Rat) (weightHistory : List WeightRecord)
    (ht : t ≠ 0) :
    (weightHistory.length < 2 →
      calculateTrendAnalysis (some t) now weightHistory = none) ∧
    (2 ≤ weightHistory.length →
      let avg := ((wlast weightHistory).weight_kg - (wfirst weightHistory).weight_kg) /
        (jsMax 1 (((wlast weightHistory).recorded_date -
          (wfirst weightHistory).recorded_date : Int) : Rat) / 7)
      let weeks := |(wlast weightHistory).weight_kg - t| / |avg|
      ∃ ta, calculateTrendAnalysis (some t) now weightHistory = some ta ∧
        ta.avgWeeklyChange = avg ∧
        (avg ≠ 0 →
          ta.weeksToTarget = some weeks ∧
          ta.projectedDate = some (now + (Rat.floor (weeks * 7) : Int))) ∧
        (avg = 0 → ta.weeksToTarget = none ∧ ta.projectedDate = none)) := by
  constructor
  · intro hlt
    unfold calculateTrendAnalysis
    rw [if_pos hlt]
  · intro h2
    have hpos := jsMax_one_div_seven_pos
      (((wlast weightHistory).recorded_date - (wfirst weightHistory).recorded_date : Int) : Rat)
    unfold calculateTrendAnalysis
    rw [if_neg (not_lt.mpr h2)]
    refine ⟨_, rfl, ?_, ?_, ?_⟩
    · simp only [if_pos hpos]
    · intro ha
      simp only [if_pos hpos]
      rw [if_neg ht, if_neg ha]
      constructor <;> simp [jsAbs_eq_abs, abs_div]
    · intro ha
      simp only [if_pos hpos]
      rw [if_neg ht, if_pos ha]
      exact ⟨rfl, rfl⟩

/-- Witness for C1 at concrete inputs, exercising both branches. -/
theorem c1_trend_projection_witness :
    calculateTrendAnalysis (some (17/2)) 0 [⟨0, 10⟩] = none ∧
    (calculateTrendAnalysis (some (17/2)) 0 [⟨0, 10⟩, ⟨7, 9⟩]).isSome = true := by
  constructor
  · exact (c1_trend_projection_amended 0 (17/2) [⟨0, 10⟩] (by norm_num)).1 (by decide)
  · obtain ⟨ta, hta, -⟩ :=
      (c1_trend_projection_amended 0 (17/2) [⟨0, 10⟩, ⟨7, 9⟩] (by norm_num)).2 (by decide)
    rw [hta]
    rfl

/-- C2: for every non-empty history the milestone badges unlock exactly at
total change `≥ 1, 5, 10, 15` kg measured against the (truthy) supplied
start weight or else the earliest record, the log-count badges exactly at
`≥ 10` and `≥ 50` records, the streak badges exactly at computed streak
`≥ 3, 7, 30, 100`, and, when a (truthy) target weight is set, "Goal
Achieved!" exactly when the current weight has reached or passed the target
in the direction of change. -/
theorem c2_achievement_thresholds (today : Int) (startWeight targetWeight : Option Rat)
    (weightHistory : List WeightRecord) (hne : weightHistory ≠ []) :
    ∃ flags, calculateAchievements today startWeight targetWeight weightHistory =
        some flags ∧
      (let firstWeight :=
        match startWeight with
        | some s => if s = 0 then (wfirst weightHistory).weight_kg else s
        | none => (wfirst weightHistory).weight_kg
      let currentWeight := (wlast weightHistory).weight_kg
      (flags.kg1 = true ↔ 1 ≤ |currentWeight - firstWeight|) ∧
      (flags.kg5 = true ↔ 5 ≤ |currentWeight - firstWeight|) ∧
      (flags.kg10 = true ↔ 10 ≤ |currentWeight - firstWeight|) ∧
      (flags.kg15 = true ↔ 15 ≤ |currentWeight - firstWeight|) ∧
      (flags.logs10 = true ↔ 10 ≤ weightHistory.length) ∧
      (flags.logs50 = true ↔ 50 ≤ weightHistory.length) ∧
      (flags.streak3 = true ↔ 3 ≤ calculateStreak today weightHistory) ∧
      (flags.streak7 = true ↔ 7 ≤ calculateStreak today weightHistory) ∧
      (flags.streak30 = true ↔ 30 ≤ calculateStreak today weightHistory) ∧
      (flags.streak100 = true ↔ 100 ≤ calculateStreak today weightHistory) ∧
      (∀ t, targetWeight = some t → t ≠ 0 →
        (flags.targetReached = some true ↔
          (if currentWeight < firstWeight then currentWeight ≤ t
           else t ≤ currentWeight)))) := by
  unfold calculateAchievements
  rw [if_neg (by simpa [List.length_eq_zero] using hne)]
  refine ⟨_, rfl, ?_⟩
  refine ⟨?_, ?_, ?_, ?_, ?_, ?_, ?_, ?_, ?_, ?_, ?_⟩
  all_goals simp only [decide_eq_true_eq, jsAbs_eq_abs]
  case _ =>
    intro t htw ht
    subst htw
    by_cases hl : (wlast weightHistory).weight_kg <
        (match startWeight with
         | some s => if s = 0 then (wfirst weightHistory).weight_kg else s
         | none => (wfirst weightHistory).weight_kg)
    · simp [ht, hl]
    · simp [ht, hl]

/-- Witness for C2 at a concrete one-record history. -/
theorem c2_achievement_witness :
    (calculateAchievements 0 none (some 60) [⟨0, 70⟩]).isSome = true := by
  obtain ⟨flags, hf, -⟩ := c2_achievement_thresholds 0 none (some 60) [⟨0, 70⟩] (by decide)
  rw [hf]
  rfl

end WellFedWiz
